import Mathlib

/-!
Shallow embedding of `diff/apply/apply.go` (the layer-diff application engine
`fsApplier.Apply` with its `readCounter` wrapper) and of the registry-auth
status handling (`FetchToken`, `FetchTokenWithOAuth`, `newUnexpectedStatusErr`).

Streams are byte lists (`List Nat`); external collaborators (content store,
decoder registry `diff.GetProcessor`, `archive.Apply`, `mount.WithTempMount`,
the hash) are parameters of an `Env` record, following the external-interface
contracts the code relies on.  `Apply` takes a fuel bound because the Go
resolution loop is unbounded; a `none` result means the loop was still
running after `fuel` iterations.  Side effects are recorded in an event trace.
-/

namespace Containerd

/-- OCI content descriptor: media-type label, digest reference, byte size
(`ocispec.Descriptor`, restricted to the fields `apply.go` touches). -/
structure Descriptor where
  MediaType : String
  Digest : String
  Size : Int
deriving DecidableEq, Repr

/-- `var emptyDesc = ocispec.Descriptor{}` — the zero-valued descriptor. -/
def emptyDesc : Descriptor := ⟨"", "", 0⟩

/-- `ocispec.MediaTypeImageLayer`, the canonical uncompressed-layer label. -/
def MediaTypeImageLayer : String := "application/vnd.oci.image.layer.v1.tar"

/-- A byte source handed out by the content store: the bytes it will deliver,
plus a flag saying whether reading past those bytes yields a read error
instead of a clean end-of-stream. -/
structure ByteSrc where
  data : List Nat
  bad : Bool
deriving DecidableEq, Repr

/-- One decoding stage produced by the decoder registry: the label of the
stream it exposes and the pure decode it applies to the bytes. -/
structure Stage where
  label : String
  decode : List Nat → List Nat

/-- A stream processor as held by the resolution loop: current label,
current (decoded) bytes, the source's error flag, and an acquisition id
used by the event trace. -/
structure Proc where
  label : String
  data : List Nat
  bad : Bool
  id : Nat
deriving Repr

/-- `ApplyConfig.ProcessorPayloads`, modelled as an association list from a
media-type label to its side-channel payload. -/
abbrev Payloads := List (String × String)

/-- `diff.ApplyConfig`: the options structure built before the operation. -/
structure ApplyConfig where
  ProcessorPayloads : Payloads
deriving DecidableEq, Repr

/-- `diff.ApplyOpt`: an option function that may update the configuration or
fail (the context argument is dropped; the descriptor argument is kept). -/
abbrev ApplyOpt := Descriptor → ApplyConfig → Except String ApplyConfig

/-- The loop `for _, o := range opts { if err := o(ctx, desc, &config) ... }`:
options are applied left to right, the first failure aborts. -/
def applyOpts : List ApplyOpt → Descriptor → ApplyConfig → Except String ApplyConfig
  | [], _, c => .ok c
  | o :: rest, d, c =>
    match o d c with
    | .error e => .error e
    | .ok c' => applyOpts rest d c'

/-- The error categories `Apply` can return, tagged by the return site in the
Go code (the wrap messages "failed to apply config opt", "failed to get
reader from content store", "failed to get stream processor for %s" become
constructor tags carrying the wrapped cause). -/
inductive ApplyErr
  | optErr (msg : String)
  | readerErr (msg : String)
  | processorErr (media : String) (msg : String)
  | mountErr
  | extractErr (msg : String)
  | drainErr
deriving DecidableEq, Repr

/-- Observable side effects of one `Apply` call, in order of occurrence. -/
inductive Event
  | storeRead
  | raClosed
  | stageAcquired (id : Nat)
  | stageClosed (id : Nat)
  | mountAcquired
  | mountReleased
  | extractCalled
  | logApplied (dgst : String) (size : Int) (media : String)
deriving DecidableEq, Repr

/-- The external collaborators of `fsApplier.Apply`: the content store's
`ReaderAt`, the decoder registry behind `diff.GetProcessor`, the extraction
algorithm `archive.Apply` (returning how many canonical bytes it consumed),
whether `mount.WithTempMount` can acquire the temp mount, and the digest
finalizer over the bytes fed to the accumulator. -/
structure Env where
  store : Descriptor → Except String ByteSrc
  registry : String → Payloads → Except String Stage
  extract : List Nat → Except String Nat
  mountOk : Bool
  hash : List Nat → String

/-- The resolution loop of `Apply` (lines 80–87): on each iteration ask the
registry for the next stage for the current label, fail if it fails, stop
when the new stage's label is the canonical layer label.  `fuel` bounds the
number of iterations; a `none` first component means the loop was still
running when the fuel ran out.  The trace records each acquired stage. -/
def resolveLoop (env : Env) (pl : Payloads) :
    Nat → Proc → Nat → Option (Except String Proc) × List Event
  | 0, _, _ => (none, [])
  | Nat.succ fuel, p, nid =>
    match env.registry p.label pl with
    | .error e => (some (.error e), [])
    | .ok st =>
      if st.label = MediaTypeImageLayer then
        (some (.ok ⟨st.label, st.decode p.data, p.bad, nid⟩), [Event.stageAcquired nid])
      else
        ((resolveLoop env pl fuel ⟨st.label, st.decode p.data, p.bad, nid⟩ (nid + 1)).1,
          Event.stageAcquired nid ::
            (resolveLoop env pl fuel ⟨st.label, st.decode p.data, p.bad, nid⟩ (nid + 1)).2)

/-- The canonical reader's accounting state: the running byte count `c`
(the `readCounter` field) and the bytes fed to the digest accumulator by
the tee. -/
structure RC where
  c : Int
  fed : List Nat
deriving DecidableEq, Repr

/-- Passing a batch of bytes through the counting/teeing wrapper: the count
grows by the number of bytes, the digest accumulator receives exactly
those bytes. -/
def rcRead (rc : RC) (bs : List Nat) : RC :=
  ⟨rc.c + (bs.length : Int), rc.fed ++ bs⟩

/-- The result of one `Apply` call: the returned descriptor, the returned
error (`none` = nil), and the event trace. -/
structure ApplyOut where
  d : Descriptor
  err : Option ApplyErr
  trace : List Event
deriving DecidableEq, Repr

/-- `fsApplier.Apply`, line by line: build the config from the options;
get a reader from the store; resolve the processor chain; wrap in the
counting/digesting reader; inside the temp mount run the extractor and then
drain the trailing bytes; on success return a fresh descriptor built from
the canonical label, the final count, and the finalized digest.  Every
error path returns `emptyDesc`.  Deferred actions (`processor.Close()`,
`ra.Close()`, the success-only debug log with the original descriptor's
fields) appear at the tail of the trace in LIFO order. -/
def Apply (fuel : Nat) (env : Env) (desc : Descriptor) (opts : List ApplyOpt) :
    Option ApplyOut :=
  match applyOpts opts desc ⟨[]⟩ with
  | .error e => some ⟨emptyDesc, some (.optErr e), []⟩
  | .ok config =>
    match env.store desc with
    | .error e => some ⟨emptyDesc, some (.readerErr e), [.storeRead]⟩
    | .ok src =>
      match resolveLoop env config.ProcessorPayloads fuel
          ⟨desc.MediaType, src.data, src.bad, 0⟩ 1 with
      | (none, _) => none
      | (some (.error e), tr) =>
        some ⟨emptyDesc, some (.processorErr desc.MediaType e),
          .storeRead :: tr ++ [.raClosed]⟩
      | (some (.ok pf), tr) =>
        if env.mountOk then
          match env.extract pf.data with
          | .error e =>
            some ⟨emptyDesc, some (.extractErr e),
              .storeRead :: tr ++
                [.mountAcquired, .extractCalled, .mountReleased,
                  .stageClosed pf.id, .raClosed]⟩
          | .ok k =>
            if pf.bad then
              some ⟨emptyDesc, some .drainErr,
                .storeRead :: tr ++
                  [.mountAcquired, .extractCalled, .mountReleased,
                    .stageClosed pf.id, .raClosed]⟩
            else
              let consumed := min k pf.data.length
              let rc2 := rcRead (rcRead ⟨0, []⟩ (pf.data.take consumed))
                (pf.data.drop consumed)
              some ⟨⟨MediaTypeImageLayer, env.hash rc2.fed, rc2.c⟩, none,
                .storeRead :: tr ++
                  [.mountAcquired, .extractCalled, .mountReleased,
                    .stageClosed pf.id, .raClosed,
                    .logApplied desc.Digest desc.Size desc.MediaType]⟩
        else
          some ⟨emptyDesc, some .mountErr,
            .storeRead :: tr ++ [.stageClosed pf.id, .raClosed]⟩

/-!
Per-read micro-model of the canonical reader.  The Go value is
`&readCounter{r: io.TeeReader(processor, digester.Hash())}`: a `readCounter`
whose wrapped reader is a tee of the processor stream into the digest hash.
An underlying reader is an abstract step function: given its state and the
length of the caller's buffer it returns the bytes delivered (a short read
returns fewer bytes), an optional error, and its next state.
-/

/-- State of `io.TeeReader(r, digester.Hash())`: the wrapped reader's state
and the bytes written so far to the digest hash (a hash write never fails,
so the tee's error-replacing branch is never taken). -/
structure TeeState (ρ : Type) where
  rst : ρ
  fed : List Nat
deriving Repr

/-- `TeeReader.Read`: read from the wrapped reader, write the bytes read to
the hash, return count and error unchanged. -/
def teeRead {ρ : Type} (read : ρ → Nat → List Nat × Option String × ρ)
    (st : TeeState ρ) (plen : Nat) : (List Nat × Option String) × TeeState ρ :=
  (((read st.rst plen).1, (read st.rst plen).2.1),
    ⟨(read st.rst plen).2.2, st.fed ++ (read st.rst plen).1⟩)

/-- State of the `readCounter` over the tee: the tee's state and the running
count `c`. -/
structure RCState (ρ : Type) where
  tee : TeeState ρ
  c : Int
deriving Repr

/-- `readCounter.Read`: `n, err = rc.r.Read(p); rc.c += int64(n); return`. -/
def readCounterRead {ρ : Type} (read : ρ → Nat → List Nat × Option String × ρ)
    (st : RCState ρ) (plen : Nat) : (List Nat × Option String) × RCState ρ :=
  ((teeRead read st.tee plen).1,
    ⟨(teeRead read st.tee plen).2, st.c + ((teeRead read st.tee plen).1.1.length : Int)⟩)

/-- A sequence of reads through the canonical reader: returns the
per-read results and the final state. -/
def readCounterMany {ρ : Type} (read : ρ → Nat → List Nat × Option String × ρ) :
    List Nat → RCState ρ → List (List Nat × Option String) × RCState ρ
  | [], st => ([], st)
  | plen :: rest, st =>
    ((readCounterRead read st plen).1 ::
        (readCounterMany read rest (readCounterRead read st plen).2).1,
      (readCounterMany read rest (readCounterRead read st plen).2).2)

/-!
Registry-auth collaborator: `newUnexpectedStatusErr`, `FetchToken`, and
`FetchTokenWithOAuth`, modelled from the point where the HTTP response is in
hand.  Request construction and transport are external (`ctxhttp.Do`); the
JSON decoder is passed in as a function on the body bytes.
-/

/-- `ErrUnexpectedStatus`: status line, status code, and a captured prefix of
the response body. -/
structure ErrUnexpectedStatus where
  Status : String
  StatusCode : Nat
  Body : List Nat
deriving DecidableEq, Repr

/-- An HTTP response as the two fetchers see it; `Body = none` models a nil
body. -/
structure HTTPResponse where
  Status : String
  StatusCode : Nat
  Body : Option (List Nat)
deriving DecidableEq, Repr

/-- `newUnexpectedStatusErr`: capture at most 64000 bytes of the body
(`ioutil.ReadAll(io.LimitReader(resp.Body, 64000))`), or none if the body
is nil. -/
def newUnexpectedStatusErr (resp : HTTPResponse) : ErrUnexpectedStatus :=
  { Status := resp.Status, StatusCode := resp.StatusCode,
    Body := match resp.Body with
      | none => []
      | some b => b.take 64000 }

/-- `getTokenResponse`, restricted to the fields the control flow reads. -/
structure GetTokenResponse where
  Token : String
  AccessToken : String
deriving DecidableEq, Repr

/-- `postTokenResponse`, restricted to the fields the control flow reads. -/
structure PostTokenResponse where
  AccessToken : String
deriving DecidableEq, Repr

/-- Error outcomes of the token fetchers past the transport step. -/
inductive FetchErr
  | unexpectedStatus (e : ErrUnexpectedStatus)
  | decodeErr (msg : String)
  | noToken
deriving DecidableEq, Repr

/-- `FetchTokenWithOAuth` from the response on: status outside [200,400)
fails with `ErrUnexpectedStatus`; otherwise decode the body as a POST token
response and return its access token. -/
def FetchTokenWithOAuth (resp : HTTPResponse)
    (decodeP : Option (List Nat) → Except String PostTokenResponse) :
    Except FetchErr String :=
  if resp.StatusCode < 200 ∨ 400 ≤ resp.StatusCode then
    .error (.unexpectedStatus (newUnexpectedStatusErr resp))
  else
    match decodeP resp.Body with
    | .error e => .error (.decodeErr e)
    | .ok tr => .ok tr.AccessToken

/-- `FetchToken` from the response on: status outside [200,400) fails with
`ErrUnexpectedStatus`; otherwise decode the body as a GET token response,
canonicalize `access_token` into `token`, and fail with `ErrNoToken` when
both are empty. -/
def FetchToken (resp : HTTPResponse)
    (decodeG : Option (List Nat) → Except String GetTokenResponse) :
    Except FetchErr String :=
  if resp.StatusCode < 200 ∨ 400 ≤ resp.StatusCode then
    .error (.unexpectedStatus (newUnexpectedStatusErr resp))
  else
    match decodeG resp.Body with
    | .error e => .error (.decodeErr e)
    | .ok tr0 =>
      let tr := if tr0.AccessToken ≠ "" then { tr0 with Token := tr0.AccessToken } else tr0
      if tr.Token = "" then .error .noToken else .ok tr.Token

/-! Helper lemmas. -/

/-- A trace produced by the resolution loop records stage acquisitions only. -/
def onlyAcquired (tr : List Event) : Prop :=
  ∀ ev ∈ tr, ∃ i, ev = Event.stageAcquired i

/-- Stage-close events occurring in a trace, in order. -/
def stageCloses : List Event → List Nat
  | [] => []
  | Event.stageClosed i :: tr => i :: stageCloses tr
  | _ :: tr => stageCloses tr

/-- Errors raised before or during chain resolution (option application,
content-store reader acquisition, `GetProcessor`), as opposed to errors
raised after the chain has been resolved. -/
def preResolutionErr : Option ApplyErr → Bool
  | some (.optErr _) => true
  | some (.readerErr _) => true
  | some (.processorErr _ _) => true
  | _ => false

lemma resolveLoop_trace_onlyAcquired (env : Env) (pl : Payloads) :
    ∀ fuel p nid, onlyAcquired (resolveLoop env pl fuel p nid).2 := by
  intro fuel
  induction fuel with
  | zero =>
    intro p nid ev hev
    simp [resolveLoop] at hev
  | succ n ih =>
    intro p nid ev hev
    simp only [resolveLoop] at hev
    rcases hreg : env.registry p.label pl with e | st <;> simp only [hreg] at hev
    · simp at hev
    · by_cases hlab : st.label = MediaTypeImageLayer
      · rw [if_pos hlab] at hev
        simp at hev
        exact ⟨nid, hev⟩
      · rw [if_neg hlab] at hev
        rcases List.mem_cons.mp hev with h | h
        · exact ⟨nid, h⟩
        · exact ih _ _ ev h

lemma stageCloses_append (a b : List Event) :
    stageCloses (a ++ b) = stageCloses a ++ stageCloses b := by
  induction a with
  | nil => rfl
  | cons ev rest ih => cases ev <;> simp [stageCloses, ih]

lemma stageCloses_of_onlyAcquired {tr : List Event} (h : onlyAcquired tr) :
    stageCloses tr = [] := by
  induction tr with
  | nil => rfl
  | cons ev rest ih =>
    obtain ⟨i, hi⟩ := h ev (List.mem_cons_self ev rest)
    subst hi
    simp only [stageCloses]
    exact ih fun e he => h e (List.mem_cons_of_mem _ he)

lemma applyOpts_append (d : Descriptor) (rest : List ApplyOpt) :
    ∀ (pre : List ApplyOpt) (c c' : ApplyConfig), applyOpts pre d c = .ok c' →
      applyOpts (pre ++ rest) d c = applyOpts rest d c' := by
  intro pre
  induction pre with
  | nil =>
    intro c c' h
    simp only [applyOpts] at h
    cases h
    rfl
  | cons o pre' ih =>
    intro c c' h
    simp only [applyOpts, List.cons_append] at h ⊢
    rcases ho : o d c with e | c1 <;> rw [ho] at h
    · exact absurd h (by simp)
    · exact ih c1 c' h

/-- The success-path computation of `Apply`: when the options, the store,
the resolution loop, the mount, and the extractor all succeed and the stream
ends cleanly, `Apply` returns the freshly built descriptor and the full
trace ending in the success log. -/
lemma Apply_success_run (fuel : Nat) (env : Env) (desc : Descriptor)
    (opts : List ApplyOpt) (cfg : ApplyConfig) (src : ByteSrc) (pf : Proc)
    (tr : List Event) (k : Nat)
    (h1 : applyOpts opts desc ⟨[]⟩ = .ok cfg)
    (h2 : env.store desc = .ok src)
    (h3 : resolveLoop env cfg.ProcessorPayloads fuel
      ⟨desc.MediaType, src.data, src.bad, 0⟩ 1 = (some (.ok pf), tr))
    (h4 : env.mountOk = true)
    (h5 : env.extract pf.data = .ok k)
    (hbad : pf.bad = false) :
    Apply fuel env desc opts =
      some ⟨⟨MediaTypeImageLayer, env.hash pf.data, (pf.data.length : Int)⟩, none,
        Event.storeRead :: tr ++
          [Event.mountAcquired, Event.extractCalled, Event.mountReleased,
            Event.stageClosed pf.id, Event.raClosed,
            Event.logApplied desc.Digest desc.Size desc.MediaType]⟩ := by
  have hcons : min k pf.data.length ≤ pf.data.length := min_le_right _ _
  have hc : ((0 : Int) + ((pf.data.take (min k pf.data.length)).length : Int)) +
      ((pf.data.drop (min k pf.data.length)).length : Int) = (pf.data.length : Int) := by
    simp only [List.length_take, List.length_drop]
    omega
  have hf : (([] : List Nat) ++ pf.data.take (min k pf.data.length)) ++
      pf.data.drop (min k pf.data.length) = pf.data := by
    simp [List.take_append_drop]
  simp only [Apply, h1, h2, h3, h4, h5, hbad, if_true, Bool.false_eq_true, if_false,
    rcRead]
  rw [hc, hf]

/-- The drain-error computation of `Apply`: the extractor succeeded but the
canonical stream's remainder cannot be read to a clean end, so the drain
(`io.Copy(ioutil.Discard, rc)`) fails and `Apply` fails. -/
lemma Apply_drain_error_run (fuel : Nat) (env : Env) (desc : Descriptor)
    (opts : List ApplyOpt) (cfg : ApplyConfig) (src : ByteSrc) (pf : Proc)
    (tr : List Event) (k : Nat)
    (h1 : applyOpts opts desc ⟨[]⟩ = .ok cfg)
    (h2 : env.store desc = .ok src)
    (h3 : resolveLoop env cfg.ProcessorPayloads fuel
      ⟨desc.MediaType, src.data, src.bad, 0⟩ 1 = (some (.ok pf), tr))
    (h4 : env.mountOk = true)
    (h5 : env.extract pf.data = .ok k)
    (hbad : pf.bad = true) :
    Apply fuel env desc opts =
      some ⟨emptyDesc, some .drainErr,
        Event.storeRead :: tr ++
          [Event.mountAcquired, Event.extractCalled, Event.mountReleased,
            Event.stageClosed pf.id, Event.raClosed]⟩ := by
  simp only [Apply, h1, h2, h3, h4, h5, hbad, if_true]

/-- Claim C3: for a decoder registry in which a (non-canonical) label maps to
a stage reporting that same label, the resolution loop of `Apply` never
terminates: for every iteration bound it is still running, having neither
failed with an error nor reached the canonical label, and `Apply` itself
returns no result for any fuel.  This contradicts the specified behaviour
(fail deterministically on an encoding loop), exhibiting the missing loop
guard. -/
theorem resolveLoop_self_cycle_diverges (env : Env) (pl : Payloads) (L : String)
    (st : Stage) (hL : ¬L = MediaTypeImageLayer) (hst : st.label = L)
    (hreg : env.registry L pl = .ok st) :
    (∀ fuel p nid, p.label = L → (resolveLoop env pl fuel p nid).1 = none) ∧
    (∀ fuel desc opts cfg src, desc.MediaType = L →
      applyOpts opts desc ⟨[]⟩ = .ok cfg → cfg.ProcessorPayloads = pl →
      env.store desc = .ok src → Apply fuel env desc opts = none) := by
  have main : ∀ fuel p nid, p.label = L → (resolveLoop env pl fuel p nid).1 = none := by
    intro fuel
    induction fuel with
    | zero => intro p nid _; rfl
    | succ n ih =>
      intro p nid hp
      simp only [resolveLoop]
      rw [hp, hreg]
      simp only []
      rw [if_neg (hst ▸ hL)]
      exact ih _ (nid + 1) hst
  refine ⟨main, ?_⟩
  intro fuel desc opts cfg src hdesc h1 hpl h2
  subst hpl
  rcases hres : resolveLoop env cfg.ProcessorPayloads fuel
      ⟨desc.MediaType, src.data, src.bad, 0⟩ 1 with ⟨r1, r2⟩
  have hr1 : r1 = none := by
    have := main fuel ⟨desc.MediaType, src.data, src.bad, 0⟩ 1 hdesc
    rw [hres] at this
    exact this
  subst hr1
  simp [Apply, h1, h2, hres]

/-- Claim C5: `Apply` applies the option functions in order; as soon as one
fails, it aborts with the configuration error wrapping that option's error,
the returned descriptor is empty, and the trace is empty — in particular no
reader has been requested from the content store and no other I/O has
happened. -/
theorem Apply_opt_failure_aborts_before_io (fuel : Nat) (env : Env)
    (desc : Descriptor) (pre post : List ApplyOpt) (o : ApplyOpt) (e : String)
    (c' : ApplyConfig)
    (h1 : applyOpts pre desc ⟨[]⟩ = .ok c')
    (h2 : o desc c' = .error e) :
    Apply fuel env desc (pre ++ o :: post) =
      some ⟨emptyDesc, some (.optErr e), []⟩ := by
  have habort : applyOpts (pre ++ o :: post) desc ⟨[]⟩ = .error e := by
    rw [applyOpts_append desc (o :: post) pre _ _ h1]
    simp [applyOpts, h2]
  simp [Apply, habort]

/-- Claim C7: a descriptor whose media-type label the decoder registry
rejects makes `Apply` fail with the stream-processor error wrapping the
registry's error for that label; the trace shows that the temporary mount
was never acquired and the extractor never ran (no filesystem mutation),
and no success log was emitted: chain resolution precedes the mount. -/
theorem Apply_unknown_media_type_no_mutation (fuel : Nat) (env : Env)
    (desc : Descriptor) (opts : List ApplyOpt) (cfg : ApplyConfig)
    (src : ByteSrc) (e : String)
    (h1 : applyOpts opts desc ⟨[]⟩ = .ok cfg)
    (h2 : env.store desc = .ok src)
    (h3 : env.registry desc.MediaType cfg.ProcessorPayloads = .error e) :
    Apply (fuel + 1) env desc opts =
      some ⟨emptyDesc, some (.processorErr desc.MediaType e),
        [Event.storeRead, Event.raClosed]⟩ ∧
    ∀ out, Apply (fuel + 1) env desc opts = some out →
      Event.mountAcquired ∉ out.trace ∧ Event.extractCalled ∉ out.trace ∧
      ∀ g n m, Event.logApplied g n m ∉ out.trace := by
  have hloop : resolveLoop env cfg.ProcessorPayloads (fuel + 1)
      ⟨desc.MediaType, src.data, src.bad, 0⟩ 1 = (some (.error e), []) := by
    simp only [resolveLoop]
    rw [h3]
  have hmain : Apply (fuel + 1) env desc opts =
      some ⟨emptyDesc, some (.processorErr desc.MediaType e),
        [Event.storeRead, Event.raClosed]⟩ := by
    simp [Apply, h1, h2, hloop]
  refine ⟨hmain, ?_⟩
  intro out hout
  rw [hmain] at hout
  cases hout
  refine ⟨by simp, by simp, ?_⟩
  intro g n m
  simp

/-- Exhaustive shape analysis of a terminating `Apply` call: each of the
seven return sites, with its descriptor, error, and trace, the resolution
part of the trace containing only stage acquisitions. -/
lemma Apply_shape (fuel : Nat) (env : Env) (desc : Descriptor)
    (opts : List ApplyOpt) (out : ApplyOut)
    (h : Apply fuel env desc opts = some out) :
    (∃ e, out = ⟨emptyDesc, some (.optErr e), []⟩) ∨
    (∃ e, out = ⟨emptyDesc, some (.readerErr e), [Event.storeRead]⟩) ∨
    (∃ e tr, onlyAcquired tr ∧
      out = ⟨emptyDesc, some (.processorErr desc.MediaType e),
        Event.storeRead :: tr ++ [Event.raClosed]⟩) ∨
    (∃ i tr, onlyAcquired tr ∧
      out = ⟨emptyDesc, some .mountErr,
        Event.storeRead :: tr ++ [Event.stageClosed i, Event.raClosed]⟩) ∨
    (∃ e i tr, onlyAcquired tr ∧
      out = ⟨emptyDesc, some (.extractErr e),
        Event.storeRead :: tr ++
          [Event.mountAcquired, Event.extractCalled, Event.mountReleased,
            Event.stageClosed i, Event.raClosed]⟩) ∨
    (∃ i tr, onlyAcquired tr ∧
      out = ⟨emptyDesc, some .drainErr,
        Event.storeRead :: tr ++
          [Event.mountAcquired, Event.extractCalled, Event.mountReleased,
            Event.stageClosed i, Event.raClosed]⟩) ∨
    (∃ dd i tr, onlyAcquired tr ∧
      out = ⟨dd, none,
        Event.storeRead :: tr ++
          [Event.mountAcquired, Event.extractCalled, Event.mountReleased,
            Event.stageClosed i, Event.raClosed,
            Event.logApplied desc.Digest desc.Size desc.MediaType]⟩) := by
  rcases h1 : applyOpts opts desc ⟨[]⟩ with e | cfg <;> simp only [Apply, h1] at h
  · cases h
    exact Or.inl ⟨e, rfl⟩
  · rcases h2 : env.store desc with e | src <;> simp only [h2] at h
    · cases h
      exact Or.inr (Or.inl ⟨e, rfl⟩)
    · rcases h3 : resolveLoop env cfg.ProcessorPayloads fuel
          ⟨desc.MediaType, src.data, src.bad, 0⟩ 1 with ⟨r1, tr⟩
      have htr : onlyAcquired tr := by
        have hh := resolveLoop_trace_onlyAcquired env cfg.ProcessorPayloads fuel
          ⟨desc.MediaType, src.data, src.bad, 0⟩ 1
        rw [h3] at hh
        exact hh
      simp only [h3] at h
      rcases r1 with _ | er
      · simp at h
      · rcases er with e | pf <;> simp only [] at h
        · cases h
          exact Or.inr (Or.inr (Or.inl ⟨e, tr, htr, rfl⟩))
        · rcases h4 : env.mountOk with _ | _ <;> simp only [h4] at h
          · simp only [Bool.false_eq_true, if_false] at h
            cases h
            exact Or.inr (Or.inr (Or.inr (Or.inl ⟨pf.id, tr, htr, rfl⟩)))
          · simp only [if_true] at h
            rcases h5 : env.extract pf.data with e | k <;> simp only [h5] at h
            · cases h
              exact Or.inr (Or.inr (Or.inr (Or.inr (Or.inl ⟨e, pf.id, tr, htr, rfl⟩))))
            · rcases h6 : pf.bad with _ | _ <;> simp only [h6] at h
              · simp only [Bool.false_eq_true, if_false] at h
                cases h
                exact Or.inr (Or.inr (Or.inr (Or.inr (Or.inr (Or.inr
                  ⟨_, pf.id, tr, htr, rfl⟩)))))
              · simp only [if_true] at h
                cases h
                exact Or.inr (Or.inr (Or.inr (Or.inr (Or.inr (Or.inl
                  ⟨pf.id, tr, htr, rfl⟩)))))

/-- Claim C9: whenever a terminating `Apply` call returns a non-nil error —
whatever the failing step — the descriptor it returns is exactly the
zero-valued empty descriptor. -/
theorem Apply_error_returns_emptyDesc (fuel : Nat) (env : Env)
    (desc : Descriptor) (opts : List ApplyOpt) (out : ApplyOut)
    (h : Apply fuel env desc opts = some out) (he : out.err ≠ none) :
    out.d = emptyDesc ∧ out.d.MediaType = "" ∧ out.d.Digest = "" ∧
      out.d.Size = 0 := by
  rcases Apply_shape fuel env desc opts out h with
    ⟨e, rfl⟩ | ⟨e, rfl⟩ | ⟨e, tr, htr, rfl⟩ | ⟨i, tr, htr, rfl⟩ |
    ⟨e, i, tr, htr, rfl⟩ | ⟨i, tr, htr, rfl⟩ | ⟨dd, i, tr, htr, rfl⟩
  · exact ⟨rfl, rfl, rfl, rfl⟩
  · exact ⟨rfl, rfl, rfl, rfl⟩
  · exact ⟨rfl, rfl, rfl, rfl⟩
  · exact ⟨rfl, rfl, rfl, rfl⟩
  · exact ⟨rfl, rfl, rfl, rfl⟩
  · exact ⟨rfl, rfl, rfl, rfl⟩
  · exact absurd rfl he

lemma no_log_in (tr tail : List Event) (htr : onlyAcquired tr) (g : String)
    (n : Int) (m : String) (htail : Event.logApplied g n m ∉ tail) :
    Event.logApplied g n m ∉ Event.storeRead :: tr ++ tail := by
  intro hm
  rcases List.mem_cons.mp hm with hm | hm
  · simp at hm
  · rcases List.mem_append.mp hm with hm | hm
    · obtain ⟨j, hj⟩ := htr _ hm
      simp at hj
    · exact htail hm

/-- Claim C8: a terminating `Apply` call appends the observability record —
carrying the original descriptor's digest, size, and media type — to its
trace exactly when it returns a nil error; on every failing path no such
record is emitted. -/
theorem Apply_logs_iff_success (fuel : Nat) (env : Env) (desc : Descriptor)
    (opts : List ApplyOpt) (out : ApplyOut)
    (h : Apply fuel env desc opts = some out) :
    (out.err = none → ∃ pre, out.trace =
      pre ++ [Event.logApplied desc.Digest desc.Size desc.MediaType]) ∧
    (out.err ≠ none → ∀ g n m, Event.logApplied g n m ∉ out.trace) := by
  rcases Apply_shape fuel env desc opts out h with
    ⟨e, rfl⟩ | ⟨e, rfl⟩ | ⟨e, tr, htr, rfl⟩ | ⟨i, tr, htr, rfl⟩ |
    ⟨e, i, tr, htr, rfl⟩ | ⟨i, tr, htr, rfl⟩ | ⟨dd, i, tr, htr, rfl⟩
  · exact ⟨fun hn => by simp at hn, fun _ g n m hm => by simp at hm⟩
  · exact ⟨fun hn => by simp at hn, fun _ g n m hm => by simp at hm⟩
  · exact ⟨fun hn => by simp at hn,
      fun _ g n m => no_log_in tr _ htr g n m (by simp)⟩
  · exact ⟨fun hn => by simp at hn,
      fun _ g n m => no_log_in tr _ htr g n m (by simp)⟩
  · exact ⟨fun hn => by simp at hn,
      fun _ g n m => no_log_in tr _ htr g n m (by simp)⟩
  · exact ⟨fun hn => by simp at hn,
      fun _ g n m => no_log_in tr _ htr g n m (by simp)⟩
  · refine ⟨fun _ => ?_, fun hne => absurd rfl hne⟩
    refine ⟨Event.storeRead :: tr ++
      [Event.mountAcquired, Event.extractCalled, Event.mountReleased,
        Event.stageClosed i, Event.raClosed], ?_⟩
    simp

/-- Claim C4 (amended): a terminating `Apply` call closes a decoding stage
exactly when chain resolution succeeded, and then it closes exactly one
stage — the final one — once, immediately before the content reader's
close, on every later exit path (success, extraction error, drain error,
mount failure); when option application, reader acquisition, or
`GetProcessor` fails, no stage acquired so far is closed. -/
theorem Apply_stage_close_discipline (fuel : Nat) (env : Env)
    (desc : Descriptor) (opts : List ApplyOpt) (out : ApplyOut)
    (h : Apply fuel env desc opts = some out) :
    (preResolutionErr out.err = true → stageCloses out.trace = []) ∧
    (preResolutionErr out.err = false →
      ∃ i pre, stageCloses pre = [] ∧
        out.trace = pre ++ [Event.stageClosed i, Event.raClosed] ++
          (if out.err = none
            then [Event.logApplied desc.Digest desc.Size desc.MediaType]
            else [])) := by
  rcases Apply_shape fuel env desc opts out h with
    ⟨e, rfl⟩ | ⟨e, rfl⟩ | ⟨e, tr, htr, rfl⟩ | ⟨i, tr, htr, rfl⟩ |
    ⟨e, i, tr, htr, rfl⟩ | ⟨i, tr, htr, rfl⟩ | ⟨dd, i, tr, htr, rfl⟩
  · exact ⟨fun _ => rfl, fun hf => by simp [preResolutionErr] at hf⟩
  · exact ⟨fun _ => rfl, fun hf => by simp [preResolutionErr] at hf⟩
  · refine ⟨fun _ => ?_, fun hf => by simp [preResolutionErr] at hf⟩
    simp [stageCloses, stageCloses_append, stageCloses_of_onlyAcquired htr]
  · refine ⟨fun ht => by simp [preResolutionErr] at ht, fun _ => ?_⟩
    refine ⟨i, Event.storeRead :: tr, ?_, ?_⟩
    · simp [stageCloses, stageCloses_of_onlyAcquired htr]
    · simp
  · refine ⟨fun ht => by simp [preResolutionErr] at ht, fun _ => ?_⟩
    refine ⟨i, Event.storeRead :: tr ++
      [Event.mountAcquired, Event.extractCalled, Event.mountReleased], ?_, ?_⟩
    · simp [stageCloses, stageCloses_append, stageCloses_of_onlyAcquired htr]
    · simp
  · refine ⟨fun ht => by simp [preResolutionErr] at ht, fun _ => ?_⟩
    refine ⟨i, Event.storeRead :: tr ++
      [Event.mountAcquired, Event.extractCalled, Event.mountReleased], ?_, ?_⟩
    · simp [stageCloses, stageCloses_append, stageCloses_of_onlyAcquired htr]
    · simp
  · refine ⟨fun ht => by simp [preResolutionErr] at ht, fun _ => ?_⟩
    refine ⟨i, Event.storeRead :: tr ++
      [Event.mountAcquired, Event.extractCalled, Event.mountReleased], ?_, ?_⟩
    · simp [stageCloses, stageCloses_append, stageCloses_of_onlyAcquired htr]
    · simp

/-- Claim C6: once the options, store read, chain resolution, mount, and
extraction have succeeded — the extractor having consumed `k` bytes, not
necessarily the whole canonical stream — `Apply` drains the rest: the
returned size is the byte length of the complete canonical stream (trailing
bytes the extractor did not read included) and the returned digest is the
digest of that complete stream; if instead the remainder cannot be read to
a clean end, `Apply` fails with the stream-completeness error. -/
theorem Apply_drains_trailing_and_accounts (fuel : Nat) (env : Env)
    (desc : Descriptor) (opts : List ApplyOpt) (cfg : ApplyConfig)
    (src : ByteSrc) (pf : Proc) (tr : List Event) (k : Nat)
    (h1 : applyOpts opts desc ⟨[]⟩ = .ok cfg)
    (h2 : env.store desc = .ok src)
    (h3 : resolveLoop env cfg.ProcessorPayloads fuel
      ⟨desc.MediaType, src.data, src.bad, 0⟩ 1 = (some (.ok pf), tr))
    (h4 : env.mountOk = true)
    (h5 : env.extract pf.data = .ok k) :
    (pf.bad = true → Apply fuel env desc opts =
      some ⟨emptyDesc, some .drainErr,
        Event.storeRead :: tr ++
          [Event.mountAcquired, Event.extractCalled, Event.mountReleased,
            Event.stageClosed pf.id, Event.raClosed]⟩) ∧
    (pf.bad = false → Apply fuel env desc opts =
      some ⟨⟨MediaTypeImageLayer, env.hash pf.data, (pf.data.length : Int)⟩, none,
        Event.storeRead :: tr ++
          [Event.mountAcquired, Event.extractCalled, Event.mountReleased,
            Event.stageClosed pf.id, Event.raClosed,
            Event.logApplied desc.Digest desc.Size desc.MediaType]⟩) :=
  ⟨fun hbad => Apply_drain_error_run fuel env desc opts cfg src pf tr k
      h1 h2 h3 h4 h5 hbad,
    fun hbad => Apply_success_run fuel env desc opts cfg src pf tr k
      h1 h2 h3 h4 h5 hbad⟩

/-- Claim C1: on a successful `Apply` the returned descriptor is freshly
built: its media type is the canonical uncompressed-layer label, its size is
the canonical reader's final byte count (the full canonical stream length),
and its digest is the finalized digest of the canonical decoded stream;
replacing the input descriptor's digest and size by anything (provided the
store and the options do not distinguish the two descriptors) yields the
identical output descriptor — the input's digest and size are never used to
build the output. -/
theorem Apply_fresh_output_descriptor (fuel : Nat) (env : Env)
    (desc : Descriptor) (opts : List ApplyOpt) (cfg : ApplyConfig)
    (src : ByteSrc) (pf : Proc) (tr : List Event) (k : Nat) (g : String)
    (nn : Int)
    (h1 : applyOpts opts desc ⟨[]⟩ = .ok cfg)
    (h2 : env.store desc = .ok src)
    (h3 : resolveLoop env cfg.ProcessorPayloads fuel
      ⟨desc.MediaType, src.data, src.bad, 0⟩ 1 = (some (.ok pf), tr))
    (h4 : env.mountOk = true)
    (h5 : env.extract pf.data = .ok k)
    (hbad : pf.bad = false)
    (h7 : env.store ⟨desc.MediaType, g, nn⟩ = env.store desc)
    (h8 : ∀ c, applyOpts opts ⟨desc.MediaType, g, nn⟩ c = applyOpts opts desc c) :
    ∃ tr1 tr2,
      Apply fuel env desc opts =
        some ⟨⟨MediaTypeImageLayer, env.hash pf.data, (pf.data.length : Int)⟩,
          none, tr1⟩ ∧
      Apply fuel env ⟨desc.MediaType, g, nn⟩ opts =
        some ⟨⟨MediaTypeImageLayer, env.hash pf.data, (pf.data.length : Int)⟩,
          none, tr2⟩ :=
  ⟨_, _,
    Apply_success_run fuel env desc opts cfg src pf tr k h1 h2 h3 h4 h5 hbad,
    Apply_success_run fuel env ⟨desc.MediaType, g, nn⟩ opts cfg src pf tr k
      ((h8 ⟨[]⟩).trans h1) (h7.trans h2) h3 h4 h5 hbad⟩

lemma readCounterMany_c {ρ : Type} (read : ρ → Nat → List Nat × Option String × ρ) :
    ∀ (plens : List Nat) (st : RCState ρ),
      (readCounterMany read plens st).2.c =
        st.c + (((readCounterMany read plens st).1.map fun r => (r.1.length : Int)).sum) := by
  intro plens
  induction plens with
  | nil => intro st; simp [readCounterMany]
  | cons plen rest ih =>
    intro st
    simp only [readCounterMany, List.map_cons, List.sum_cons]
    rw [ih]
    simp only [readCounterRead, teeRead]
    ring

lemma readCounterMany_fed {ρ : Type} (read : ρ → Nat → List Nat × Option String × ρ) :
    ∀ (plens : List Nat) (st : RCState ρ),
      (readCounterMany read plens st).2.tee.fed =
        st.tee.fed ++ ((readCounterMany read plens st).1.map Prod.fst).flatten := by
  intro plens
  induction plens with
  | nil => intro st; simp [readCounterMany]
  | cons plen rest ih =>
    intro st
    simp only [readCounterMany, List.map_cons, List.flatten]
    rw [ih]
    simp only [readCounterRead, teeRead]
    simp [List.append_assoc]

/-- Claim C2: a read of arbitrary requested length through the canonical
reader (`readCounter` over `io.TeeReader(processor, digester.Hash())`)
forwards the request to the underlying source exactly once, returns exactly
the bytes and the error that source returned — boundaries, short reads, and
errors unaltered — feeds exactly the returned bytes into the digest
accumulator, and adds the returned byte count to the running total; over
any sequence of reads the total is the sum of the returned byte counts and
the accumulator holds their concatenation. -/
theorem readCounter_forwards_and_accounts {ρ : Type}
    (read : ρ → Nat → List Nat × Option String × ρ) (st : RCState ρ)
    (plen : Nat) (plens : List Nat) :
    (readCounterRead read st plen).1.1 = (read st.tee.rst plen).1 ∧
    (readCounterRead read st plen).1.2 = (read st.tee.rst plen).2.1 ∧
    (readCounterRead read st plen).2.tee.rst = (read st.tee.rst plen).2.2 ∧
    (readCounterRead read st plen).2.tee.fed =
      st.tee.fed ++ (read st.tee.rst plen).1 ∧
    (readCounterRead read st plen).2.c =
      st.c + ((read st.tee.rst plen).1.length : Int) ∧
    (readCounterMany read plens st).2.c =
      st.c + (((readCounterMany read plens st).1.map fun r => (r.1.length : Int)).sum) ∧
    (readCounterMany read plens st).2.tee.fed =
      st.tee.fed ++ ((readCounterMany read plens st).1.map Prod.fst).flatten :=
  ⟨rfl, rfl, rfl, rfl, rfl, readCounterMany_c read plens st,
    readCounterMany_fed read plens st⟩

/-- Claim C10: both token fetchers treat a response as successful exactly
when its status code lies in [200, 400): any code below 200 or at/above 400
yields `ErrUnexpectedStatus` carrying the response's status text and code
and at most 64000 bytes of the body, while for any code in range — every
3xx included — no such error is possible and the body is handed to the
token-response decoder, whose outcome determines the result. -/
theorem FetchToken_status_handling (resp : HTTPResponse)
    (decodeG : Option (List Nat) → Except String GetTokenResponse)
    (decodeP : Option (List Nat) → Except String PostTokenResponse) :
    ((resp.StatusCode < 200 ∨ 400 ≤ resp.StatusCode) →
      FetchToken resp decodeG =
        .error (.unexpectedStatus (newUnexpectedStatusErr resp)) ∧
      FetchTokenWithOAuth resp decodeP =
        .error (.unexpectedStatus (newUnexpectedStatusErr resp)) ∧
      (newUnexpectedStatusErr resp).StatusCode = resp.StatusCode ∧
      (newUnexpectedStatusErr resp).Status = resp.Status ∧
      (newUnexpectedStatusErr resp).Body.length ≤ 64000) ∧
    (200 ≤ resp.StatusCode ∧ resp.StatusCode < 400 →
      (∀ er, FetchToken resp decodeG ≠ .error (.unexpectedStatus er)) ∧
      (∀ er, FetchTokenWithOAuth resp decodeP ≠ .error (.unexpectedStatus er)) ∧
      (∀ e, decodeG resp.Body = .error e →
        FetchToken resp decodeG = .error (.decodeErr e)) ∧
      (∀ e, decodeP resp.Body = .error e →
        FetchTokenWithOAuth resp decodeP = .error (.decodeErr e)) ∧
      (∀ tpr, decodeP resp.Body = .ok tpr →
        FetchTokenWithOAuth resp decodeP = .ok tpr.AccessToken)) := by
  constructor
  · intro h
    refine ⟨by simp [FetchToken, if_pos h], by simp [FetchTokenWithOAuth, if_pos h],
      rfl, rfl, ?_⟩
    unfold newUnexpectedStatusErr
    cases hb : resp.Body with
    | none => simp
    | some b =>
      simp only [List.length_take]
      exact le_trans (min_le_left _ _) (le_refl _)
  · intro hrange
    have hneg : ¬(resp.StatusCode < 200 ∨ 400 ≤ resp.StatusCode) := by omega
    refine ⟨?_, ?_, ?_, ?_, ?_⟩
    · intro er heq
      simp only [FetchToken, if_neg hneg] at heq
      rcases hd : decodeG resp.Body with e | tr0 <;> simp only [hd] at heq
      · simp at heq
      · split at heq <;> (try split at heq) <;> simp at heq
    · intro er heq
      simp only [FetchTokenWithOAuth, if_neg hneg] at heq
      rcases hd : decodeP resp.Body with e | tr0 <;> simp only [hd] at heq
      · simp at heq
      · simp at heq
    · intro e hd
      simp [FetchToken, if_neg hneg, hd]
    · intro e hd
      simp [FetchTokenWithOAuth, if_neg hneg, hd]
    · intro tpr hd
      simp [FetchTokenWithOAuth, if_neg hneg, hd]

/-! Concrete test fixtures: a well-behaved environment whose registry knows
one compressed-layer label (decoding appends a trailing pad byte), whose
extractor consumes only a prefix of the canonical stream, and whose store
rejects one media type; plus a two-stage environment whose second lookup
fails, and a degenerate self-mapping registry. -/

def envT : Env :=
  { store := fun d =>
      if d.MediaType = "nope" then .error "not found"
      else .ok ⟨[7, 7, 7, 7, 7], false⟩,
    registry := fun l _ =>
      if l = "layer+gzip" then .ok ⟨MediaTypeImageLayer, fun x => x ++ [0]⟩
      else .error "no processor",
    extract := fun _ => .ok 4,
    mountOk := true,
    hash := fun l => "h" ++ toString l.length }

def descT : Descriptor := ⟨"layer+gzip", "sha:abc", 5⟩

def outT : ApplyOut :=
  ⟨⟨MediaTypeImageLayer, envT.hash [7, 7, 7, 7, 7, 0],
      (([7, 7, 7, 7, 7, 0] : List Nat).length : Int)⟩, none,
    [Event.storeRead, Event.stageAcquired 1, Event.mountAcquired,
      Event.extractCalled, Event.mountReleased, Event.stageClosed 1,
      Event.raClosed, Event.logApplied "sha:abc" 5 "layer+gzip"]⟩

def envCex : Env :=
  { store := fun _ => .ok ⟨[1, 2], false⟩,
    registry := fun l _ =>
      if l = "a" then .ok ⟨"b", fun x => x⟩ else .error "no processor",
    extract := fun _ => .ok 0,
    mountOk := true,
    hash := fun _ => "" }

def descCex : Descriptor := ⟨"a", "d1", 7⟩

def envSelf : Env :=
  { store := fun _ => .ok ⟨[], false⟩,
    registry := fun _ _ => .ok ⟨"x", fun x => x⟩,
    extract := fun _ => .ok 0,
    mountOk := true,
    hash := fun _ => "" }

def descSelf : Descriptor := ⟨"x", "", 0⟩

/-- Claim C4 (counterexample): a run in which stage 1 is acquired, the next
`GetProcessor` lookup fails, and `Apply` exits without closing stage 1 —
refuting "on every exit path every intermediate decoding stage acquired so
far is closed". -/
theorem Apply_midchain_stage_never_closed :
    Apply 5 envCex descCex [] =
      some ⟨emptyDesc, some (.processorErr "a" "no processor"),
        [Event.storeRead, Event.stageAcquired 1, Event.raClosed]⟩ ∧
    Event.stageAcquired 1 ∈
      [Event.storeRead, Event.stageAcquired 1, Event.raClosed] ∧
    Event.stageClosed 1 ∉
      [Event.storeRead, Event.stageAcquired 1, Event.raClosed] :=
  ⟨rfl, by decide, by decide⟩

/-- Witness for C3 at a concrete self-mapping registry: for bound 7 (as for
any bound) the loop has produced no outcome, and `Apply` returns nothing. -/
theorem resolveLoop_self_cycle_diverges_witness :
    (resolveLoop envSelf [] 7 ⟨"x", [], false, 0⟩ 1).1 = none ∧
    Apply 7 envSelf descSelf [] = none :=
  ⟨(resolveLoop_self_cycle_diverges envSelf [] "x" ⟨"x", fun x => x⟩
      (by decide) rfl rfl).1 7 ⟨"x", [], false, 0⟩ 1 rfl,
    (resolveLoop_self_cycle_diverges envSelf [] "x" ⟨"x", fun x => x⟩
      (by decide) rfl rfl).2 7 descSelf [] ⟨[]⟩ ⟨[], false⟩ rfl rfl rfl rfl⟩

/-- Witness for C5: one succeeding option followed by one failing option. -/
theorem Apply_opt_failure_aborts_before_io_witness :
    Apply 1 envT descT
        ([fun _ c => .ok c] ++ (fun _ _ => .error "bad opt") :: []) =
      some ⟨emptyDesc, some (.optErr "bad opt"), []⟩ :=
  Apply_opt_failure_aborts_before_io 1 envT descT [fun _ c => .ok c] []
    (fun _ _ => .error "bad opt") "bad opt" ⟨[]⟩ rfl rfl

/-- Witness for C6: the extractor consumes 4 of the 6 canonical bytes; the
output still reports size 6 and the digest of all 6 bytes. -/
theorem Apply_drains_trailing_and_accounts_witness :
    Apply 3 envT descT [] = some outT :=
  (Apply_drains_trailing_and_accounts 3 envT descT [] ⟨[]⟩
    ⟨[7, 7, 7, 7, 7], false⟩ ⟨MediaTypeImageLayer, [7, 7, 7, 7, 7, 0], false, 1⟩
    [Event.stageAcquired 1] 4 rfl rfl rfl rfl rfl).2 rfl

/-- Witness for C1: same canonical stream with the input digest and size
replaced gives the identical freshly built output descriptor. -/
theorem Apply_fresh_output_descriptor_witness :
    ∃ tr1 tr2,
      Apply 3 envT descT [] =
        some ⟨⟨MediaTypeImageLayer, envT.hash [7, 7, 7, 7, 7, 0],
          (([7, 7, 7, 7, 7, 0] : List Nat).length : Int)⟩, none, tr1⟩ ∧
      Apply 3 envT ⟨descT.MediaType, "other", 99⟩ [] =
        some ⟨⟨MediaTypeImageLayer, envT.hash [7, 7, 7, 7, 7, 0],
          (([7, 7, 7, 7, 7, 0] : List Nat).length : Int)⟩, none, tr2⟩ :=
  Apply_fresh_output_descriptor 3 envT descT [] ⟨[]⟩ ⟨[7, 7, 7, 7, 7], false⟩
    ⟨MediaTypeImageLayer, [7, 7, 7, 7, 7, 0], false, 1⟩ [Event.stageAcquired 1]
    4 "other" 99 rfl rfl rfl rfl rfl rfl rfl (fun _ => rfl)

/-- Witness for C7: an unregistered label fails before mount and extraction. -/
theorem Apply_unknown_media_type_no_mutation_witness :
    Apply 2 envT ⟨"weird", "g", 1⟩ [] =
      some ⟨emptyDesc,
        some (.processorErr (Descriptor.mk "weird" "g" 1).MediaType "no processor"),
        [Event.storeRead, Event.raClosed]⟩ ∧
    (∀ out, Apply 2 envT ⟨"weird", "g", 1⟩ [] = some out →
      Event.mountAcquired ∉ out.trace ∧ Event.extractCalled ∉ out.trace ∧
      ∀ g n m, Event.logApplied g n m ∉ out.trace) :=
  Apply_unknown_media_type_no_mutation 1 envT ⟨"weird", "g", 1⟩ [] ⟨[]⟩
    ⟨[7, 7, 7, 7, 7], false⟩ "no processor" rfl rfl rfl

/-- Witness for C8 at the successful concrete run. -/
theorem Apply_logs_iff_success_witness :
    (outT.err = none → ∃ pre, outT.trace =
      pre ++ [Event.logApplied descT.Digest descT.Size descT.MediaType]) ∧
    (outT.err ≠ none → ∀ g n m, Event.logApplied g n m ∉ outT.trace) :=
  Apply_logs_iff_success 3 envT descT [] outT rfl

/-- Witness for C9 at a concrete failing run (reader acquisition fails). -/
theorem Apply_error_returns_emptyDesc_witness :
    (ApplyOut.mk emptyDesc (some (.readerErr "not found")) [Event.storeRead]).d
        = emptyDesc ∧
    (ApplyOut.mk emptyDesc (some (.readerErr "not found")) [Event.storeRead]).d.MediaType
        = "" ∧
    (ApplyOut.mk emptyDesc (some (.readerErr "not found")) [Event.storeRead]).d.Digest
        = "" ∧
    (ApplyOut.mk emptyDesc (some (.readerErr "not found")) [Event.storeRead]).d.Size
        = 0 :=
  Apply_error_returns_emptyDesc 1 envT ⟨"nope", "g", 1⟩ []
    ⟨emptyDesc, some (.readerErr "not found"), [Event.storeRead]⟩ rfl (by decide)

/-- Witness for the amended C4 at the successful concrete run. -/
theorem Apply_stage_close_discipline_witness :
    (preResolutionErr outT.err = true → stageCloses outT.trace = []) ∧
    (preResolutionErr outT.err = false →
      ∃ i pre, stageCloses pre = [] ∧
        outT.trace = pre ++ [Event.stageClosed i, Event.raClosed] ++
          (if outT.err = none
            then [Event.logApplied descT.Digest descT.Size descT.MediaType]
            else [])) :=
  Apply_stage_close_discipline 3 envT descT [] outT rfl

def resp500 : HTTPResponse := ⟨"500 Internal Server Error", 500, some [1, 2, 3]⟩

def resp302 : HTTPResponse := ⟨"302 Found", 302, some [9]⟩

def decG0 : Option (List Nat) → Except String GetTokenResponse :=
  fun _ => .ok ⟨"tok", ""⟩

def decP0 : Option (List Nat) → Except String PostTokenResponse :=
  fun _ => .ok ⟨"atok"⟩

/-- Witness for C10: a 500 is rejected with the captured body, a 302 is
accepted and its body parsed. -/
theorem FetchToken_status_handling_witness :
    FetchToken resp500 decG0 =
      .error (.unexpectedStatus (newUnexpectedStatusErr resp500)) ∧
    (newUnexpectedStatusErr resp500).Body.length ≤ 64000 ∧
    FetchTokenWithOAuth resp302 decP0 = .ok "atok" :=
  ⟨((FetchToken_status_handling resp500 decG0 decP0).1 (Or.inr (by decide))).1,
    ((FetchToken_status_handling resp500 decG0 decP0).1 (Or.inr (by decide))).2.2.2.2,
    ((FetchToken_status_handling resp302 decG0 decP0).2
      ⟨by decide, by decide⟩).2.2.2.2 ⟨"atok"⟩ rfl⟩

end Containerd
